import Mathlib

/-!
Shallow embedding of the space-mission analyzer (`analyze.py`) and proofs of
its specification claims.

The program is a linear pipeline: load a CSV of mission records, apply
filters (prime-year, divisible-year, column filters), print a summary and
optionally plot per-year success rates.  Pure computations are embedded as
Lean functions; Python runtime errors (ZeroDivisionError, IndexError,
AttributeError) are made explicit with `Except`.  File and terminal I/O is
outside the embedding; the per-row conversions and all list transformations
are modelled faithfully from the source.
-/

namespace Analyze

/-- Runtime errors the analyzer can raise while filtering/loading. -/
inductive PyError where
  | zeroDivisionError
  | indexError
  | attributeError
  deriving DecidableEq, Repr

/-- A loaded mission record: one CSV row after type coercion
(`analyze.py` lines 37-42).  Fields and their types mirror the dict built by
`load_data`: `year` and `scientific_impact` are ints, `success` a bool, the
rest strings. -/
structure MissionRecord where
  year : Int
  mission_name : String
  mission_type : String
  success : Bool
  participating_countries : String
  scientific_impact : Int
  deriving DecidableEq, Repr

/-- The keys of every loaded record dict (the CSV header columns). -/
def record_keys : List String :=
  ["year", "mission_name", "mission_type", "success",
   "participating_countries", "scientific_impact"]

/-- `is_prime` (analyze.py lines 16-23): `num < 2` is not prime; trial
division by `range(2, int(math.sqrt(num)) + 1)`, i.e. every integer from 2
to the integer square root inclusive.  Python's `%` on the nonnegative
`num` agrees with `Nat` mod. -/
def is_prime (num : Int) : Bool :=
  if num < 2 then false
  else (List.range' 2 (Nat.sqrt num.toNat - 1)).all fun i => !(num.toNat % i == 0)

/-- `is_divisible_by` (analyze.py lines 26-28): `num % divisor == 0`.
Python's `%` is floor mod (`Int.fmod`); `divisor == 0` raises
ZeroDivisionError. -/
def is_divisible_by (num divisor : Int) : Except PyError Bool :=
  if divisor == 0 then .error .zeroDivisionError
  else .ok (Int.fmod num divisor == 0)

/-- Python `s.lower()` (the data is ASCII). -/
def lower (s : String) : String :=
  String.mk (s.data.map Char.toLower)

/-- Accumulator loop reading a nonempty run of ASCII digits as a number;
any non-digit character means the whole string is rejected. -/
def digits_val : List Char → Nat → Option Nat
  | [], acc => some acc
  | c :: rest, acc =>
    if c.isDigit then digits_val rest (acc * 10 + (c.toNat - 48)) else none

/-- Python `int(s)` on the plain decimal strings this pipeline produces: an
optional leading `-` followed by one or more ASCII digits; anything else
raises ValueError, modelled as `none`. -/
def str_to_int (s : String) : Option Int :=
  match s.data with
  | [] => none
  | '-' :: rest =>
    match rest with
    | [] => none
    | _ :: _ => (digits_val rest 0).map fun n => -(n : Int)
  | cs => (digits_val cs 0).map fun n => (n : Int)

/-- One raw CSV data row: the six named fields as unparsed strings, as
`csv.DictReader` yields them. -/
structure RawRow where
  year : String
  mission_name : String
  mission_type : String
  success : String
  participating_countries : String
  scientific_impact : String
  deriving DecidableEq, Repr

/-- Row conversion from `load_data`'s loop body (analyze.py lines 39-41):
`int(row[...])` for year and impact (failure = ValueError = `none`),
`row[...].lower() == 'true'` for success, other fields kept verbatim. -/
def parse_row (row : RawRow) : Option MissionRecord :=
  match str_to_int row.year, str_to_int row.scientific_impact with
  | some y, some impact =>
    some ⟨y, row.mission_name, row.mission_type,
          lower row.success == "true", row.participating_countries, impact⟩
  | _, _ => none

/-- `load_data` (analyze.py lines 31-49) restricted to its pure core: the
rows of an opened file are converted in order; the first conversion failure
aborts the load with no partial result (the Python code exits the process).
File opening/IO is outside the embedding. -/
def load_data : List RawRow → Option (List MissionRecord)
  | [] => some []
  | row :: rest => do
    let r ← parse_row row
    let rest' ← load_data rest
    pure (r :: rest')

/-- `filter_by_prime_years` (analyze.py lines 52-54). -/
def filter_by_prime_years (data : List MissionRecord) : List MissionRecord :=
  data.filter fun row => is_prime row.year

/-- `filter_by_divisible_years` (analyze.py lines 57-59): a list
comprehension calling `is_divisible_by` on each row in order, so a zero
divisor raises at the first row and the error propagates. -/
def filter_by_divisible_years (data : List MissionRecord) (divisor : Int) :
    Except PyError (List MissionRecord) :=
  match data with
  | [] => .ok []
  | row :: rest => do
    let keep ← is_divisible_by row.year divisor
    let rest' ← filter_by_divisible_years rest divisor
    pure (if keep then row :: rest' else rest')

/-- The string value of `row[column]` for the text-typed columns.  `year`
and `scientific_impact` hold ints and `success` holds a bool, so calling
`.lower()` on them raises AttributeError: those columns map to `none`. -/
def text_field (row : MissionRecord) (column : String) : Option String :=
  if column == "mission_name" then some row.mission_name
  else if column == "mission_type" then some row.mission_type
  else if column == "participating_countries" then some row.participating_countries
  else none

/-- Python's substring test `needle in hay`. -/
def str_contains (hay needle : String) : Bool :=
  decide (needle.toList <:+: hay.toList)

/-- `filter_by_column` (analyze.py lines 62-80).  `data[0].keys()` raises
IndexError on an empty list before anything else.  An unknown column is a
reported no-op returning `data`.  `success` compares against
`value.lower() == 'true'`; `scientific_impact` parses an int threshold
(ValueError = reported no-op); every other existing column does a
case-insensitive substring match, which raises AttributeError on the
int-valued `year` column. -/
def filter_by_column (data : List MissionRecord) (column value : String) :
    Except PyError (List MissionRecord) :=
  match data with
  | [] => .error .indexError
  | first :: _ =>
    if !(record_keys.contains column) then .ok data
    else if column == "success" then
      .ok (data.filter fun row => row.success == (lower value == "true"))
    else if column == "scientific_impact" then
      match str_to_int value with
      | some threshold => .ok (data.filter fun row => threshold ≤ row.scientific_impact)
      | none => .ok data
    else
      match text_field first column with
      | none => .error .attributeError
      | some _ =>
        .ok (data.filter fun row =>
          str_contains (lower ((text_field row column).getD "")) (lower value))

/-- One step of building a Counter: bump the entry for `x` if present,
otherwise append a fresh entry at the end. -/
def ci_step (acc : List (String × Nat)) (x : String) : List (String × Nat) :=
  if acc.any (fun p => p.1 == x) then
    acc.map fun p => if p.1 == x then (p.1, p.2 + 1) else p
  else acc ++ [(x, 1)]

/-- `collections.Counter(xs)`: a dict from element to multiplicity whose
iteration order is first-encounter order, modelled as an association list
built exactly that way. -/
def count_items (xs : List String) : List (String × Nat) :=
  xs.foldl ci_step []

/-- The count stored for key `k` (0 when absent): the value the Counter
dict lookup would give. -/
def lookup0 (acc : List (String × Nat)) (k : String) : Nat :=
  match acc.find? (fun p => p.1 == k) with
  | some p => p.2
  | none => 0

/-- Ordering used by `Counter.most_common`: descending by count. -/
def count_ge (a b : String × Nat) : Prop := b.2 ≤ a.2

instance : DecidableRel count_ge := fun a b => Nat.decLe b.2 a.2

instance : IsTotal (String × Nat) count_ge := ⟨fun a b => Nat.le_total b.2 a.2⟩

instance : IsTrans (String × Nat) count_ge := ⟨fun _ _ _ h1 h2 => Nat.le_trans h2 h1⟩

/-- `Counter.most_common()`: `sorted(items, key=count, reverse=True)` — a
stable sort, descending by count, ties keeping dict (first-encounter)
order.  CPython's sorted is stable; `List.insertionSort` is a stable sort
with identical output. -/
def most_common (counts : List (String × Nat)) : List (String × Nat) :=
  List.insertionSort count_ge counts

/-- Python `s.split('/')` on the character level. -/
def split_on_slash_chars : List Char → List (List Char)
  | [] => [[]]
  | c :: rest =>
    match split_on_slash_chars rest with
    | [] => [[]]
    | g :: gs => if c == '/' then [] :: g :: gs else (c :: g) :: gs

/-- Python `s.split('/')`: the `/`-separated pieces, empty pieces kept. -/
def split_on_slash (s : String) : List String :=
  (split_on_slash_chars s.data).map String.mk

/-- The numbers and orderings printed by `generate_summary`
(analyze.py lines 111-147), as exact values: the two percentages are kept
as rationals (the program formats them with `:.1f` at print time). -/
structure Summary where
  total : Nat
  min_year : Option Int
  max_year : Option Int
  success_rate : ℚ
  avg_impact : ℚ
  type_breakdown : List (String × Nat)
  country_breakdown : List (String × Nat)
  deriving Repr

/-- `generate_summary` (analyze.py lines 111-147) on nonempty data:
total count, `min(years)`/`max(years)`, success rate
`success_count / len(data) * 100`, average impact `sum/len`, and the two
`Counter(...).most_common()` breakdowns (countries from splitting
`participating_countries` on `/`). -/
def generate_summary (data : List MissionRecord) : Summary :=
  ⟨data.length,
   (data.map (·.year)).min?,
   (data.map (·.year)).max?,
   ((data.countP (·.success) : ℚ) / (data.length : ℚ)) * 100,
   ((data.map (·.scientific_impact)).sum : ℚ) / (data.length : ℚ),
   most_common (count_items (data.map (·.mission_type))),
   most_common (count_items
     (data.flatMap fun row => split_on_slash row.participating_countries))⟩

/-- `sorted(set(row['year'] for row in data))` from `plot_mission_success`
(analyze.py line 156): the distinct years in ascending order. -/
def plot_years (data : List MissionRecord) : List Int :=
  List.insertionSort (· ≤ ·) ((data.map (·.year)).dedup)

/-- Per-year success rate from `plot_mission_success` (lines 160-176): the
counting loops give, for each year, the number of its rows and of its
successful rows; the rate is `successes / total * 100`, with the dead
`total == 0` guard kept. -/
def year_success_rate (data : List MissionRecord) (y : Int) : ℚ :=
  if 0 < data.countP (fun r => r.year == y) then
    ((data.countP (fun r => r.year == y && r.success) : ℚ) /
      (data.countP (fun r => r.year == y) : ℚ)) * 100
  else 0

/-- The bar heights of `plot_mission_success`, one per distinct year in
ascending order (line 172-176). -/
def plot_success_rates (data : List MissionRecord) : List ℚ :=
  (plot_years data).map (year_success_rate data)

/-- The horizontal reference line `sum(success_rates)/len(success_rates)`
(line 181): the unweighted mean of the per-year rates. -/
def plot_refline (data : List MissionRecord) : ℚ :=
  (plot_success_rates data).sum / ((plot_success_rates data).length : ℚ)

/-- The overall success rate over all records, for contrast with
`plot_refline` (this is what `generate_summary` prints, not what the plot
draws). -/
def global_success_rate (data : List MissionRecord) : ℚ :=
  ((data.countP (·.success) : ℚ) / (data.length : ℚ)) * 100

/-- Multiplicity of `k` in `xs` (specification-side counting). -/
def occurrences (xs : List String) (k : String) : Nat :=
  xs.countP fun x => x == k

/-- Specification predicate for a `most_common` breakdown of the multiset
of tokens `xs`: no duplicate keys, keys are exactly the tokens that occur,
each key carries its multiplicity, counts are descending, and entries with
equal counts keep first-encounter order (the order of `count_items xs`,
which models the Counter dict). -/
def breakdown_ok (bd : List (String × Nat)) (xs : List String) : Prop :=
  (bd.map Prod.fst).Nodup ∧
  (∀ k, k ∈ bd.map Prod.fst ↔ k ∈ xs) ∧
  (∀ p ∈ bd, p.2 = occurrences xs p.1) ∧
  bd.Pairwise (fun a b => b.2 ≤ a.2) ∧
  (∀ c : Nat, bd.filter (fun p => p.2 == c) = (count_items xs).filter (fun p => p.2 == c))

/-- Sample raw CSV rows used to instantiate the load theorems. -/
def rawA : RawRow := ⟨"1971", "Apollo", "Moon", "TRUE", "USA", "7"⟩

/-- A second sample raw row. -/
def rawB : RawRow := ⟨"1980", "Viking", "Mars", "no", "USA/USSR", "-3"⟩

/-- Sample records used to instantiate theorems on concrete inputs. -/
def sampleA : MissionRecord := ⟨1970, "Apollo 13", "Moon", true, "USA", 5⟩

/-- A second sample record. -/
def sampleB : MissionRecord := ⟨1971, "Mars 3", "Mars", true, "USA/USSR", 8⟩

/-- A third sample record. -/
def sampleC : MissionRecord := ⟨1971, "Mariner 8", "Mars", false, "USSR", 3⟩

instance : Std.Antisymm (fun a b : Int => a ≤ b) := ⟨fun h1 h2 => le_antisymm h1 h2⟩

instance : DecidableEq (Except PyError (List MissionRecord)) := fun a b =>
  match a, b with
  | .ok x, .ok y => decidable_of_iff (x = y) (by simp)
  | .error x, .error y => decidable_of_iff (x = y) (by simp)
  | .ok _, .error _ => isFalse (by simp)
  | .error _, .ok _ => isFalse (by simp)

instance : DecidableEq (Except PyError Bool) := fun a b =>
  match a, b with
  | .ok x, .ok y => decidable_of_iff (x = y) (by simp)
  | .error x, .error y => decidable_of_iff (x = y) (by simp)
  | .ok _, .error _ => isFalse (by simp)
  | .error _, .ok _ => isFalse (by simp)

/-! ### Helper lemmas -/

/-- Evaluate `is_prime` once the integer square root is pinned down. -/
theorem is_prime_eval (num : Int) (s : Nat) (h2 : ¬ num < 2)
    (hs : s * s ≤ num.toNat ∧ num.toNat < (s + 1) * (s + 1)) :
    is_prime num = ((List.range' 2 (s - 1)).all fun i => !(num.toNat % i == 0)) := by
  rw [is_prime, if_neg h2, (Nat.eq_sqrt.mpr hs).symm]

/-- The trial-division loop of `is_prime` decides exactly divisibility by
some integer in `[2, sqrt n]`. -/
theorem is_prime_iff (n : Int) (h : 2 ≤ n) :
    is_prime n = true ↔ ∀ d : Nat, 2 ≤ d → d ≤ Nat.sqrt n.toNat → ¬ ((d : Int) ∣ n) := by
  have hn0 : (0 : Int) ≤ n := le_trans (by norm_num) h
  have hs1 : 1 ≤ Nat.sqrt n.toNat := Nat.le_sqrt.mpr (by omega)
  rw [is_prime, if_neg (not_lt.mpr h), List.all_eq_true]
  constructor
  · intro hall d hd2 hds
    have hmem : d ∈ List.range' 2 (Nat.sqrt n.toNat - 1) := by
      rw [List.mem_range'_1]; omega
    have hd := hall d hmem
    simp only [Bool.not_eq_eq_eq_not, Bool.not_true, beq_eq_false_iff_ne, ne_eq] at hd
    intro hdvd
    have hdvd2 : d ∣ n.toNat := by
      have hc : (d : Int) ∣ (n.toNat : Int) := by rwa [Int.toNat_of_nonneg hn0]
      exact_mod_cast hc
    exact hd (Nat.mod_eq_zero_of_dvd hdvd2)
  · intro hforall d hmem
    rw [List.mem_range'_1] at hmem
    simp only [Bool.not_eq_eq_eq_not, Bool.not_true, beq_eq_false_iff_ne, ne_eq]
    intro hmod
    have hdvd : d ∣ n.toNat := Nat.dvd_of_mod_eq_zero hmod
    have hdvd2 : (d : Int) ∣ n := by
      rw [show n = ((n.toNat : Nat) : Int) from (Int.toNat_of_nonneg hn0).symm]
      exact_mod_cast hdvd
    exact hforall d hmem.1 (by omega) hdvd2

/-- Python floor-mod is zero exactly on multiples. -/
theorem fmod_eq_zero_iff_dvd (a b : Int) : Int.fmod a b = 0 ↔ b ∣ a := by
  constructor
  · intro h
    have h2 := Int.fmod_add_fdiv a b
    rw [h, zero_add] at h2
    exact ⟨a.fdiv b, h2.symm⟩
  · rintro ⟨c, rfl⟩
    rw [mul_comm]
    exact Int.mul_fmod_left c b

/-- For a nonzero divisor the year filter is an ordinary `List.filter`. -/
theorem filter_by_divisible_years_eq (data : List MissionRecord) (d : Int) (hd : d ≠ 0) :
    filter_by_divisible_years data d =
      .ok (data.filter fun row => Int.fmod row.year d == 0) := by
  induction data with
  | nil => rfl
  | cons row rest ih =>
    have hbeq : (d == 0) = false := by simpa using hd
    simp only [filter_by_divisible_years, is_divisible_by, hbeq, Bool.false_eq_true, if_false,
      ih, List.filter_cons]
    cases h : (Int.fmod row.year d == 0) <;> simp [h] <;> rfl

/-- A zero divisor raises at the first record and the error propagates. -/
theorem divisible_zero_error (data : List MissionRecord) (hne : data ≠ []) :
    filter_by_divisible_years data 0 = .error .zeroDivisionError := by
  cases data with
  | nil => exact absurd rfl hne
  | cons row rest => rfl

/-- `is_divisible_by` with a nonzero divisor decides divisibility. -/
theorem is_divisible_by_ok (n d : Int) (hd : d ≠ 0) :
    is_divisible_by n d = .ok (decide (d ∣ n)) := by
  have hbeq : (d == 0) = false := by simpa using hd
  simp only [is_divisible_by, hbeq, Bool.false_eq_true, if_false]
  congr 1
  rw [Bool.eq_iff_iff, beq_iff_eq, decide_eq_true_iff]
  exact fmod_eq_zero_iff_dvd n d

/-- Whether a column is text-typed does not depend on the row. -/
theorem text_field_some (r r2 : MissionRecord) (c : String) (s : String)
    (h : text_field r c = some s) : ∃ s2, text_field r2 c = some s2 := by
  unfold text_field at h ⊢
  by_cases h1 : (c == "mission_name") = true <;>
    by_cases h2 : (c == "mission_type") = true <;>
    by_cases h3 : (c == "participating_countries") = true <;>
    simp [h1, h2, h3] at h ⊢

/-- Every column filter except the `year` column on nonempty data succeeds
with a sublist (subsequence in order) of its input. -/
theorem filter_by_column_ok (data : List MissionRecord) (column value : String)
    (hne : data ≠ []) (hy : column ≠ "year") :
    ∃ out, filter_by_column data column value = .ok out ∧ out.Sublist data := by
  cases data with
  | nil => exact absurd rfl hne
  | cons first rest =>
    by_cases hk : record_keys.contains column = true
    · have hmem : column ∈ record_keys := by simpa using hk
      simp only [record_keys, List.mem_cons, List.mem_singleton, List.not_mem_nil, or_false] at hmem
      rcases hmem with h | h | h | h | h | h
      · exact absurd h hy
      · subst h
        exact ⟨_, rfl, List.filter_sublist _⟩
      · subst h
        exact ⟨_, rfl, List.filter_sublist _⟩
      · subst h
        exact ⟨_, rfl, List.filter_sublist _⟩
      · subst h
        exact ⟨_, rfl, List.filter_sublist _⟩
      · subst h
        cases hv : str_to_int value with
        | some t =>
          have heq : filter_by_column (first :: rest) "scientific_impact" value =
              .ok ((first :: rest).filter fun row => decide (t ≤ row.scientific_impact)) := by
            simp [filter_by_column, record_keys, hv]
          exact ⟨_, heq, List.filter_sublist _⟩
        | none =>
          have heq : filter_by_column (first :: rest) "scientific_impact" value =
              .ok (first :: rest) := by
            simp [filter_by_column, record_keys, hv]
          exact ⟨_, heq, List.Sublist.refl _⟩
    · have hc : record_keys.contains column = false := by simpa using hk
      exact ⟨first :: rest, by simp only [filter_by_column, hc, Bool.not_false, if_pos],
        List.Sublist.refl _⟩

/-- A list that is the output of a filter is unchanged by that filter. -/
theorem filter_eq_self_of_filter_eq {α : Type} {p : α → Bool} {data out : List α}
    (h : data.filter p = out) : out.filter p = out := by
  subst h
  rw [List.filter_eq_self]
  exact fun a ha => List.of_mem_filter ha

/-- Re-applying a column filter to a nonempty successful result returns the
result unchanged. -/
theorem filter_by_column_idem (data : List MissionRecord) (column value : String)
    (out : List MissionRecord) (h : filter_by_column data column value = .ok out)
    (hne : out ≠ []) : filter_by_column out column value = .ok out := by
  cases data with
  | nil => exact absurd h (by simp [filter_by_column])
  | cons first rest =>
    obtain ⟨o, os, rfl⟩ : ∃ o os, out = o :: os := by
      cases out with
      | nil => exact absurd rfl hne
      | cons o os => exact ⟨o, os, rfl⟩
    by_cases hk : record_keys.contains column = true
    case neg =>
      have hc : record_keys.contains column = false := by simpa using hk
      rw [show filter_by_column (first :: rest) column value = .ok (first :: rest) by
        simp only [filter_by_column, hc, Bool.not_false, if_pos]] at h
      obtain ⟨rfl, rfl⟩ : first = o ∧ rest = os := by simpa using h
      simp only [filter_by_column, hc, Bool.not_false, if_pos]
    case pos =>
      have hmem : column ∈ record_keys := by simpa using hk
      simp only [record_keys, List.mem_cons, List.mem_singleton, List.not_mem_nil,
        or_false] at hmem
      rcases hmem with hcol | hcol | hcol | hcol | hcol | hcol
      · subst hcol
        exact absurd h (by simp [filter_by_column, record_keys, text_field])
      · subst hcol
        have h2 : (first :: rest).filter
            (fun row => str_contains (lower ((text_field row "mission_name").getD ""))
              (lower value)) = o :: os := by
          have := h
          rw [show filter_by_column (first :: rest) "mission_name" value =
            .ok ((first :: rest).filter
              (fun row => str_contains (lower ((text_field row "mission_name").getD ""))
                (lower value))) from rfl] at this
          simpa using this
        rw [show filter_by_column (o :: os) "mission_name" value =
          .ok ((o :: os).filter
            (fun row => str_contains (lower ((text_field row "mission_name").getD ""))
              (lower value))) from rfl]
        rw [filter_eq_self_of_filter_eq h2]
      · subst hcol
        have h2 : (first :: rest).filter
            (fun row => str_contains (lower ((text_field row "mission_type").getD ""))
              (lower value)) = o :: os := by
          have := h
          rw [show filter_by_column (first :: rest) "mission_type" value =
            .ok ((first :: rest).filter
              (fun row => str_contains (lower ((text_field row "mission_type").getD ""))
                (lower value))) from rfl] at this
          simpa using this
        rw [show filter_by_column (o :: os) "mission_type" value =
          .ok ((o :: os).filter
            (fun row => str_contains (lower ((text_field row "mission_type").getD ""))
              (lower value))) from rfl]
        rw [filter_eq_self_of_filter_eq h2]
      · subst hcol
        have h2 : (first :: rest).filter
            (fun row => row.success == (lower value == "true")) = o :: os := by
          have := h
          rw [show filter_by_column (first :: rest) "success" value =
            .ok ((first :: rest).filter
              (fun row => row.success == (lower value == "true"))) from rfl] at this
          simpa using this
        rw [show filter_by_column (o :: os) "success" value =
          .ok ((o :: os).filter
            (fun row => row.success == (lower value == "true"))) from rfl]
        rw [filter_eq_self_of_filter_eq h2]
      · subst hcol
        have h2 : (first :: rest).filter
            (fun row => str_contains (lower ((text_field row "participating_countries").getD ""))
              (lower value)) = o :: os := by
          have := h
          rw [show filter_by_column (first :: rest) "participating_countries" value =
            .ok ((first :: rest).filter
              (fun row => str_contains
                (lower ((text_field row "participating_countries").getD ""))
                (lower value))) from rfl] at this
          simpa using this
        rw [show filter_by_column (o :: os) "participating_countries" value =
          .ok ((o :: os).filter
            (fun row => str_contains (lower ((text_field row "participating_countries").getD ""))
              (lower value))) from rfl]
        rw [filter_eq_self_of_filter_eq h2]
      · subst hcol
        cases hv : str_to_int value with
        | some t =>
          have h2 : (first :: rest).filter
              (fun row => decide (t ≤ row.scientific_impact)) = o :: os := by
            have h3 := h
            simp only [filter_by_column, record_keys, hv] at h3
            simpa using h3
          have hgoal : filter_by_column (o :: os) "scientific_impact" value =
              .ok ((o :: os).filter (fun row => decide (t ≤ row.scientific_impact))) := by
            simp [filter_by_column, record_keys, hv]
          rw [hgoal, filter_eq_self_of_filter_eq h2]
        | none =>
          have h2 : first :: rest = o :: os := by
            have h3 := h
            simp only [filter_by_column, record_keys, hv] at h3
            simpa using h3
          simp [filter_by_column, record_keys, hv]

/-- Re-applying the divisible-year filter to a successful result returns
the result unchanged (a zero divisor only ever succeeds on `[]`). -/
theorem filter_by_divisible_years_idem (data : List MissionRecord) (d : Int)
    (out : List MissionRecord) (h : filter_by_divisible_years data d = .ok out) :
    filter_by_divisible_years out d = .ok out := by
  by_cases hd : d = 0
  · subst hd
    cases data with
    | nil =>
      obtain rfl : out = [] := by
        have h2 : Except.ok ([] : List MissionRecord) = Except.ok out := h
        simpa using h2
      rfl
    | cons row rest =>
      rw [divisible_zero_error (row :: rest) (by simp)] at h
      exact absurd h (by simp)
  · rw [filter_by_divisible_years_eq data d hd] at h
    obtain rfl : data.filter (fun row => Int.fmod row.year d == 0) = out := by simpa using h
    rw [filter_by_divisible_years_eq _ d hd, filter_eq_self_of_filter_eq rfl]

/-! ### Claim theorems -/

/-- C1: `is_prime n` is false for every `n < 2`; for `n ≥ 2` it is true iff
no integer `d` with `2 ≤ d ≤ ⌊√n⌋` divides `n`; in particular it is true on
2, 3, 5, 7, 11, 97, 1973, 1979 and false on 4, 6, 8, 9, 10, 100, 1980. -/
theorem is_prime_spec :
    (∀ n : Int, n < 2 → is_prime n = false) ∧
    (∀ n : Int, 2 ≤ n →
      (is_prime n = true ↔ ∀ d : Nat, 2 ≤ d → d ≤ Nat.sqrt n.toNat → ¬ ((d : Int) ∣ n))) ∧
    (is_prime 2 = true ∧ is_prime 3 = true ∧ is_prime 5 = true ∧ is_prime 7 = true ∧
     is_prime 11 = true ∧ is_prime 97 = true ∧ is_prime 1973 = true ∧ is_prime 1979 = true ∧
     is_prime 4 = false ∧ is_prime 6 = false ∧ is_prime 8 = false ∧ is_prime 9 = false ∧
     is_prime 10 = false ∧ is_prime 100 = false ∧ is_prime 1980 = false) := by
  refine ⟨fun n hn => by rw [is_prime, if_pos hn], is_prime_iff, ?_, ?_, ?_, ?_, ?_, ?_, ?_,
    ?_, ?_, ?_, ?_, ?_, ?_, ?_, ?_⟩
  · rw [is_prime_eval 2 1 (by decide) (by decide)]; decide
  · rw [is_prime_eval 3 1 (by decide) (by decide)]; decide
  · rw [is_prime_eval 5 2 (by decide) (by decide)]; decide
  · rw [is_prime_eval 7 2 (by decide) (by decide)]; decide
  · rw [is_prime_eval 11 3 (by decide) (by decide)]; decide
  · rw [is_prime_eval 97 9 (by decide) (by decide)]; decide
  · rw [is_prime_eval 1973 44 (by decide) (by decide)]; decide
  · rw [is_prime_eval 1979 44 (by decide) (by decide)]; decide
  · rw [is_prime_eval 4 2 (by decide) (by decide)]; decide
  · rw [is_prime_eval 6 2 (by decide) (by decide)]; decide
  · rw [is_prime_eval 8 2 (by decide) (by decide)]; decide
  · rw [is_prime_eval 9 3 (by decide) (by decide)]; decide
  · rw [is_prime_eval 10 3 (by decide) (by decide)]; decide
  · rw [is_prime_eval 100 10 (by decide) (by decide)]; decide
  · rw [is_prime_eval 1980 44 (by decide) (by decide)]; decide

/-- C1 witness: the two quantified parts of `is_prime_spec` applied at
concrete inputs. -/
theorem is_prime_spec_witness :
    is_prime (-7) = false ∧
    (is_prime 9 = true ↔
      ∀ d : Nat, 2 ≤ d → d ≤ Nat.sqrt (9 : Int).toNat → ¬ ((d : Int) ∣ (9 : Int))) :=
  ⟨is_prime_spec.1 (-7) (by norm_num), is_prime_spec.2.1 9 (by norm_num)⟩

/-- C2: for a nonzero divisor `is_divisible_by n d` returns ok of exactly
the divisibility test (so `is_divisible_by 0 5` is ok true); with divisor 0
it raises ZeroDivisionError for every `n`, and the divisible-year filter on
a nonempty record list propagates that error to the caller. -/
theorem is_divisible_by_spec :
    (∀ n d : Int, d ≠ 0 → is_divisible_by n d = .ok (decide (d ∣ n))) ∧
    is_divisible_by 0 5 = .ok true ∧
    (∀ n : Int, is_divisible_by n 0 = .error .zeroDivisionError) ∧
    (∀ data : List MissionRecord, data ≠ [] →
      filter_by_divisible_years data 0 = .error .zeroDivisionError) := by
  refine ⟨is_divisible_by_ok, by decide, fun n => rfl, divisible_zero_error⟩

/-- C2 witness: `is_divisible_by_spec` applied at concrete inputs. -/
theorem is_divisible_by_spec_witness :
    is_divisible_by 10 5 = .ok (decide ((5 : Int) ∣ 10)) ∧
    filter_by_divisible_years [sampleA] 0 = .error .zeroDivisionError :=
  ⟨is_divisible_by_spec.1 10 5 (by norm_num),
   is_divisible_by_spec.2.2.2 [sampleA] (by simp)⟩

/-- C4: on the empty record list `filter_by_column` reads `data[0]` before
any check and raises IndexError for every column name and value, instead of
returning the empty list or reporting a no-op. -/
theorem filter_by_column_empty (column value : String) :
    filter_by_column [] column value = .error .indexError := rfl

/-- C3 (amended): for every NONEMPTY record sequence, a nonexistent column
or a non-integer `scientific_impact` value makes `filter_by_column` a
reported no-op returning the input unchanged.  (On the empty sequence the
function instead raises IndexError — see the counterexample.) -/
theorem filter_by_column_noop (data : List MissionRecord) (column value : String)
    (hne : data ≠ []) :
    (column ∉ record_keys → filter_by_column data column value = .ok data) ∧
    (str_to_int value = none → filter_by_column data "scientific_impact" value = .ok data) := by
  cases data with
  | nil => exact absurd rfl hne
  | cons first rest =>
    constructor
    · intro hcol
      have hc : record_keys.contains column = false := by
        simpa using hcol
      simp only [filter_by_column, hc, Bool.not_false, if_pos]
    · intro hval
      simp [filter_by_column, record_keys, hval]

/-- C3 counterexample: on the empty record sequence with a nonexistent
column, `filter_by_column` does not report-and-return the input unchanged —
it raises IndexError, so the claim's "for every record sequence" fails. -/
theorem filter_by_column_noop_cex :
    filter_by_column [] "bogus" "x" = .error .indexError ∧
    filter_by_column [] "bogus" "x" ≠ .ok [] := by
  exact ⟨rfl, by decide⟩

/-- C3 witness: `filter_by_column_noop` at concrete inputs. -/
theorem filter_by_column_noop_witness :
    filter_by_column [sampleA] "bogus" "abc" = .ok [sampleA] ∧
    filter_by_column [sampleA] "scientific_impact" "abc" = .ok [sampleA] :=
  ⟨(filter_by_column_noop [sampleA] "bogus" "abc" (by simp)).1 (by decide),
   (filter_by_column_noop [sampleA] "scientific_impact" "abc" (by simp)).2 (by decide)⟩

/-- C5 (amended): the prime-year filter, the divisible-year filter with a
nonzero divisor, and every column filter on a nonempty sequence and a
column other than `year` return a subsequence of the input in the input's
relative order (`List.Sublist`); the embedding is pure, so inputs are never
mutated.  (The claim's "every existing column" fails for `year`, whose int
value makes the substring branch raise AttributeError — see the
counterexample.) -/
theorem filter_subsequence_spec :
    (∀ data, (filter_by_prime_years data).Sublist data) ∧
    (∀ data (d : Int), d ≠ 0 →
      ∃ out, filter_by_divisible_years data d = .ok out ∧ out.Sublist data) ∧
    (∀ data column value, data ≠ [] → column ≠ "year" →
      ∃ out, filter_by_column data column value = .ok out ∧ out.Sublist data) := by
  refine ⟨fun data => List.filter_sublist data, fun data d hd => ?_, filter_by_column_ok⟩
  exact ⟨_, filter_by_divisible_years_eq data d hd, List.filter_sublist data⟩

/-- C5 counterexample: `year` is an existing column, yet filtering a
nonempty sequence on it yields no subsequence at all — it raises
AttributeError (`int` has no `.lower()`). -/
theorem filter_subsequence_cex :
    filter_by_column [sampleA] "year" "1970" = .error .attributeError ∧
    filter_by_column [sampleA] "year" "1970" ≠ .ok [sampleA] ∧
    filter_by_column [sampleA] "year" "1970" ≠ .ok [] := by
  refine ⟨rfl, by decide, by decide⟩

/-- C5 witness: `filter_subsequence_spec` at concrete inputs. -/
theorem filter_subsequence_spec_witness :
    (filter_by_prime_years [sampleB]).Sublist [sampleB] ∧
    (∃ out, filter_by_divisible_years [sampleA] 2 = .ok out ∧ out.Sublist [sampleA]) ∧
    (∃ out, filter_by_column [sampleA] "mission_type" "moon" = .ok out ∧
      out.Sublist [sampleA]) :=
  ⟨filter_subsequence_spec.1 [sampleB],
   filter_subsequence_spec.2.1 [sampleA] 2 (by norm_num),
   filter_subsequence_spec.2.2 [sampleA] "mission_type" "moon" (by simp) (by decide)⟩

/-- C7 (amended): the prime-year filter is idempotent; re-running the
divisible-year filter on a successful result reproduces it; and re-running
a column filter on a successful NONEMPTY result reproduces it.  (On an
empty first result the second application instead raises IndexError — see
the counterexample.) -/
theorem filter_idempotent_spec :
    (∀ data, filter_by_prime_years (filter_by_prime_years data) =
      filter_by_prime_years data) ∧
    (∀ data (d : Int) out, filter_by_divisible_years data d = .ok out →
      filter_by_divisible_years out d = .ok out) ∧
    (∀ data column value out, filter_by_column data column value = .ok out →
      out ≠ [] → filter_by_column out column value = .ok out) := by
  refine ⟨fun data => filter_eq_self_of_filter_eq rfl,
    filter_by_divisible_years_idem, filter_by_column_idem⟩

/-- C7 counterexample: a column filter whose first application returns the
empty list is not idempotent — the second application raises IndexError
instead of returning the empty list again. -/
theorem filter_idempotent_cex :
    filter_by_column [sampleA] "mission_type" "zzz" = .ok [] ∧
    filter_by_column [] "mission_type" "zzz" = .error .indexError := by
  exact ⟨by decide, rfl⟩

/-- C7 witness: `filter_idempotent_spec` at concrete inputs. -/
theorem filter_idempotent_spec_witness :
    filter_by_prime_years (filter_by_prime_years [sampleA]) =
      filter_by_prime_years [sampleA] ∧
    filter_by_divisible_years [sampleA] 2 = .ok [sampleA] ∧
    filter_by_column [sampleB] "mission_type" "mars" = .ok [sampleB] :=
  ⟨filter_idempotent_spec.1 [sampleA],
   filter_idempotent_spec.2.1 [sampleA] 2 [sampleA] (by decide),
   filter_idempotent_spec.2.2 [sampleB] "mission_type" "mars" [sampleB] (by decide)
     (by decide)⟩

/-- C10: for the `success` column every value whose lower-casing is not
exactly "true" — "yes", "1", arbitrary text, not just "false" — selects the
records with `success = false`; no validation of the value happens. -/
theorem filter_by_column_success_spec (data : List MissionRecord) (value : String)
    (hne : data ≠ []) (hval : lower value ≠ "true") :
    filter_by_column data "success" value =
      .ok (data.filter fun row => row.success == false) := by
  cases data with
  | nil => exact absurd rfl hne
  | cons first rest =>
    have hv : (lower value == "true") = false := by simpa using hval
    simp [filter_by_column, record_keys, hv]

/-- C10 witness: `filter_by_column_success_spec` with value "yes". -/
theorem filter_by_column_success_spec_witness :
    filter_by_column [sampleA, sampleC] "success" "yes" =
      .ok ([sampleA, sampleC].filter fun row => row.success == false) :=
  filter_by_column_success_spec [sampleA, sampleC] "yes" (by simp) (by decide)

/-- C6: every successfully loaded row sequence yields one record per row in
file order, where `year` and `scientific_impact` are the integer parses of
the row's strings, `success` is true exactly when the row's success field
lower-cases to the literal "true" (anything else gives false, no error),
and the three remaining text fields are kept verbatim. -/
theorem load_data_spec (rows : List RawRow) (recs : List MissionRecord)
    (h : load_data rows = some recs) :
    recs.length = rows.length ∧
    ∀ i (hi : i < rows.length) (hr : i < recs.length),
      str_to_int (rows.get ⟨i, hi⟩).year = some (recs.get ⟨i, hr⟩).year ∧
      str_to_int (rows.get ⟨i, hi⟩).scientific_impact =
        some (recs.get ⟨i, hr⟩).scientific_impact ∧
      (recs.get ⟨i, hr⟩).success = (lower (rows.get ⟨i, hi⟩).success == "true") ∧
      (recs.get ⟨i, hr⟩).mission_name = (rows.get ⟨i, hi⟩).mission_name ∧
      (recs.get ⟨i, hr⟩).mission_type = (rows.get ⟨i, hi⟩).mission_type ∧
      (recs.get ⟨i, hr⟩).participating_countries =
        (rows.get ⟨i, hi⟩).participating_countries := by
  induction rows generalizing recs with
  | nil =>
    obtain rfl : recs = [] := by
      have h2 : some ([] : List MissionRecord) = some recs := h
      simpa using h2
    exact ⟨rfl, fun i hi => absurd hi (by simp)⟩
  | cons row rest ih =>
    rw [load_data] at h
    cases hp : parse_row row with
    | none => rw [hp] at h; exact absurd h (by simp)
    | some r =>
      rw [hp] at h
      cases hl : load_data rest with
      | none => rw [hl] at h; exact absurd h (by simp)
      | some rs =>
        rw [hl] at h
        obtain rfl : recs = r :: rs := by simpa using h.symm
        obtain ⟨hlen, hfields⟩ := ih rs hl
        refine ⟨by simpa using hlen, ?_⟩
        intro i hi hr
        cases i with
        | zero =>
          simp only [List.get]
          unfold parse_row at hp
          cases hy : str_to_int row.year with
          | none => rw [hy] at hp; exact absurd hp (by simp)
          | some y =>
            cases hs : str_to_int row.scientific_impact with
            | none => rw [hy, hs] at hp; exact absurd hp (by simp)
            | some imp =>
              rw [hy, hs] at hp
              obtain rfl : r = ⟨y, row.mission_name, row.mission_type,
                  lower row.success == "true", row.participating_countries, imp⟩ := by
                simpa using hp.symm
              exact ⟨by simp [hy], by simp [hs], rfl, rfl, rfl, rfl⟩
        | succ j =>
          have hj : j < rest.length := by simpa using hi
          have hjr : j < rs.length := by simpa using hr
          simpa using hfields j hj hjr

/-- C6 witness: `load_data_spec` on a concrete two-row file. -/
theorem load_data_spec_witness :
    load_data [rawA, rawB] =
      some [⟨1971, "Apollo", "Moon", true, "USA", 7⟩,
        ⟨1980, "Viking", "Mars", false, "USA/USSR", -3⟩] ∧
    ([⟨1971, "Apollo", "Moon", true, "USA", 7⟩,
      ⟨1980, "Viking", "Mars", false, "USA/USSR", -3⟩] :
        List MissionRecord).length = [rawA, rawB].length :=
  ⟨by decide, (load_data_spec [rawA, rawB] _ (by decide)).1⟩

/-- One Counter step leaves the key list unchanged or appends the new key. -/
theorem ci_step_keys (acc : List (String × Nat)) (x : String) :
    (ci_step acc x).map Prod.fst =
      if x ∈ acc.map Prod.fst then acc.map Prod.fst else acc.map Prod.fst ++ [x] := by
  unfold ci_step
  by_cases hx : acc.any (fun p => p.1 == x) = true
  · have hmem : x ∈ acc.map Prod.fst := by
      simp only [List.any_eq_true, beq_iff_eq] at hx
      obtain ⟨p, hp, rfl⟩ := hx
      exact List.mem_map_of_mem _ hp
    rw [if_pos hx, if_pos hmem, List.map_map]
    apply List.map_congr_left
    intro p hp
    by_cases h : p.1 = x <;> simp [h]
  · have hmem : x ∉ acc.map Prod.fst := by
      simp only [List.any_eq_true, beq_iff_eq] at hx
      intro hc
      obtain ⟨p, hp, hpx⟩ := List.mem_map.mp hc
      exact hx ⟨p, hp, hpx⟩
    rw [if_neg hx, if_neg hmem, List.map_append]
    rfl

/-- The Counter keys are the accumulator keys plus the processed tokens. -/
theorem foldl_ci_step_keys_mem (xs : List String) (acc : List (String × Nat)) (k : String) :
    k ∈ (xs.foldl ci_step acc).map Prod.fst ↔ k ∈ acc.map Prod.fst ∨ k ∈ xs := by
  induction xs generalizing acc with
  | nil => simp
  | cons x xs ih =>
    rw [List.foldl_cons, ih, ci_step_keys]
    by_cases hx : x ∈ acc.map Prod.fst
    · rw [if_pos hx]
      simp only [List.mem_cons]
      constructor
      · rintro (h | h)
        · exact Or.inl h
        · exact Or.inr (Or.inr h)
      · rintro (h | rfl | h)
        · exact Or.inl h
        · exact Or.inl hx
        · exact Or.inr h
    · rw [if_neg hx]
      simp only [List.mem_append, List.mem_singleton, List.mem_cons, List.not_mem_nil,
        or_false]
      tauto

/-- The Counter never holds a key twice. -/
theorem foldl_ci_step_keys_nodup (xs : List String) (acc : List (String × Nat))
    (h : (acc.map Prod.fst).Nodup) : ((xs.foldl ci_step acc).map Prod.fst).Nodup := by
  induction xs generalizing acc with
  | nil => exact h
  | cons x xs ih =>
    rw [List.foldl_cons]
    apply ih
    rw [ci_step_keys]
    by_cases hx : x ∈ acc.map Prod.fst
    · rwa [if_pos hx]
    · rw [if_neg hx]
      refine List.Nodup.append h (List.nodup_singleton x) ?_
      intro a ha hb
      rw [List.mem_singleton] at hb
      subst hb
      exact hx ha

/-- One Counter step bumps exactly the processed key. -/
theorem lookup0_ci_step (acc : List (String × Nat)) (x k : String) :
    lookup0 (ci_step acc x) k = lookup0 acc k + (if k = x then 1 else 0) := by
  unfold ci_step lookup0
  by_cases hx : acc.any (fun p => p.1 == x) = true
  · rw [if_pos hx, List.find?_map]
    have hpred : ((fun p : String × Nat => p.1 == k) ∘
        (fun p : String × Nat => if p.1 == x then (p.1, p.2 + 1) else p)) =
        fun p : String × Nat => p.1 == k := by
      funext p
      by_cases h : p.1 = x <;> simp [h]
    rw [hpred]
    cases hf : acc.find? (fun p => p.1 == k) with
    | none =>
      simp only [Option.map_none']
      by_cases hkx : k = x
      · subst hkx
        exfalso
        rw [List.find?_eq_none] at hf
        simp only [List.any_eq_true] at hx
        obtain ⟨p, hp, hpx⟩ := hx
        exact hf p hp hpx
      · simp [hkx]
    | some p =>
      simp only [Option.map_some']
      have hpk : p.1 = k := by simpa using List.find?_some hf
      by_cases hkx : k = x
      · subst hkx
        simp [hpk]
      · have hpx : (p.1 == x) = false := by
          rw [hpk]
          simpa using hkx
        simp [hpx, hkx]
  · rw [if_neg hx, List.find?_append]
    by_cases hkx : k = x
    · subst hkx
      have hf : acc.find? (fun p => p.1 == k) = none := by
        rw [List.find?_eq_none]
        intro p hp hpk
        exact hx (List.any_eq_true.mpr ⟨p, hp, hpk⟩)
      rw [hf]
      simp [Option.or]
    · cases hf : acc.find? (fun p => p.1 == k) with
      | none =>
        have h1 : ([(x, 1)].find? fun p => p.1 == k) = none := by
          rw [List.find?_cons_of_neg]
          · rfl
          · simpa using Ne.symm hkx
        rw [h1]
        simp [Option.or, hkx]
      | some p =>
        simp [Option.or, hkx]

/-- After the fold, each key maps to its old count plus its multiplicity. -/
theorem lookup0_foldl (xs : List String) (acc : List (String × Nat)) (k : String) :
    lookup0 (xs.foldl ci_step acc) k = lookup0 acc k + occurrences xs k := by
  induction xs generalizing acc with
  | nil => simp [occurrences]
  | cons x xs ih =>
    rw [List.foldl_cons, ih, lookup0_ci_step]
    unfold occurrences
    rw [List.countP_cons]
    by_cases h : k = x
    · subst h
      simp
      omega
    · have hxk : (x == k) = false := by simpa using Ne.symm h
      simp [h, hxk]

/-- With duplicate-free keys, lookup of a member key finds that entry. -/
theorem find_entry_of_nodup_keys (acc : List (String × Nat)) (p : String × Nat)
    (hnd : (acc.map Prod.fst).Nodup) (hp : p ∈ acc) :
    acc.find? (fun q => q.1 == p.1) = some p := by
  induction acc with
  | nil => cases hp
  | cons q acc ih =>
    rcases List.mem_cons.mp hp with rfl | hp2
    · simp [List.find?_cons_of_pos]
    · have hnd2 : q.1 ∉ acc.map Prod.fst ∧ (acc.map Prod.fst).Nodup := by
        rw [List.map_cons, List.nodup_cons] at hnd
        exact hnd
      have hq : (q.1 == p.1) = false := by
        have hmem : p.1 ∈ acc.map Prod.fst := List.mem_map_of_mem _ hp2
        have hne : q.1 ≠ p.1 := fun hc => hnd2.1 (hc ▸ hmem)
        simpa using hne
      rw [List.find?_cons_of_neg _ (by simp [hq])]
      exact ih hnd2.2 hp2

/-- Every Counter entry carries the multiplicity of its key. -/
theorem count_items_val (xs : List String) (p : String × Nat)
    (hp : p ∈ count_items xs) : p.2 = occurrences xs p.1 := by
  have hnd : ((count_items xs).map Prod.fst).Nodup :=
    foldl_ci_step_keys_nodup xs [] (by simp)
  have hf := find_entry_of_nodup_keys (count_items xs) p hnd hp
  have hl : lookup0 (count_items xs) p.1 = p.2 := by
    unfold lookup0
    rw [hf]
  have h2 := lookup0_foldl xs [] p.1
  unfold count_items at hl
  rw [hl] at h2
  simpa [lookup0] using h2

/-- Stability of `most_common`: the entries of any one count keep their
Counter (first-encounter) order. -/
theorem most_common_filter_count (l : List (String × Nat)) (c : Nat) :
    (most_common l).filter (fun p => p.2 == c) = l.filter (fun p => p.2 == c) := by
  have hperm : (most_common l).Perm l := List.perm_insertionSort count_ge l
  have hsub : (l.filter fun p => p.2 == c).Sublist (most_common l) := by
    apply List.sublist_insertionSort
    · apply List.pairwise_of_forall_mem_list
      intro a ha b hb
      have ha2 : (a.2 == c) = true := (List.mem_filter.mp ha).2
      have hb2 : (b.2 == c) = true := (List.mem_filter.mp hb).2
      simp only [beq_iff_eq] at ha2 hb2
      unfold count_ge
      rw [ha2, hb2]
    · exact List.filter_sublist l
  have hsub2 : (l.filter fun p => p.2 == c).Sublist
      ((most_common l).filter fun p => p.2 == c) := by
    have h3 := hsub.filter (fun p => p.2 == c)
    rwa [filter_eq_self_of_filter_eq rfl] at h3
  have hlen : ((most_common l).filter fun p => p.2 == c).length =
      (l.filter fun p => p.2 == c).length := (hperm.filter _).length_eq
  exact (hsub2.eq_of_length hlen.symm).symm

/-- `Counter(xs).most_common()` is a correct breakdown of `xs`. -/
theorem most_common_breakdown_ok (xs : List String) :
    breakdown_ok (most_common (count_items xs)) xs := by
  have hperm : (most_common (count_items xs)).Perm (count_items xs) :=
    List.perm_insertionSort count_ge (count_items xs)
  have hkeysperm : ((most_common (count_items xs)).map Prod.fst).Perm
      ((count_items xs).map Prod.fst) := hperm.map Prod.fst
  refine ⟨?_, ?_, ?_, ?_, ?_⟩
  · exact hkeysperm.nodup_iff.mpr (foldl_ci_step_keys_nodup xs [] (by simp))
  · intro k
    rw [hkeysperm.mem_iff]
    have h1 := foldl_ci_step_keys_mem xs [] k
    simpa [count_items] using h1
  · intro p hp
    exact count_items_val xs p (hperm.mem_iff.mp hp)
  · exact List.sorted_insertionSort count_ge (count_items xs)
  · exact fun c => most_common_filter_count (count_items xs) c

/-- C8: on nonempty data the summary reports the record count, the least
and greatest year present, success rate `(successes/total)*100` and average
impact `sum/total` as exact rationals (printed to one decimal place), and
mission-type and country breakdowns (country tokens from splitting on `/`,
one count per token per record) with correct multiplicities, sorted
most-frequent first, ties in first-encountered order. -/
theorem generate_summary_spec (data : List MissionRecord) (h : data ≠ []) :
    (generate_summary data).total = data.length ∧
    (∃ m, (generate_summary data).min_year = some m ∧ m ∈ data.map (·.year) ∧
      ∀ y ∈ data.map (·.year), m ≤ y) ∧
    (∃ m, (generate_summary data).max_year = some m ∧ m ∈ data.map (·.year) ∧
      ∀ y ∈ data.map (·.year), y ≤ m) ∧
    (generate_summary data).success_rate =
      ((data.countP (·.success) : ℚ) / (data.length : ℚ)) * 100 ∧
    (generate_summary data).avg_impact =
      ((data.map (·.scientific_impact)).sum : ℚ) / (data.length : ℚ) ∧
    breakdown_ok (generate_summary data).type_breakdown (data.map (·.mission_type)) ∧
    breakdown_ok (generate_summary data).country_breakdown
      (data.flatMap fun row => split_on_slash row.participating_countries) := by
  refine ⟨rfl, ?_, ?_, rfl, rfl, most_common_breakdown_ok _, most_common_breakdown_ok _⟩
  · obtain ⟨a, l, hal⟩ : ∃ a l, data.map (·.year) = a :: l := by
      cases hx : data.map (·.year) with
      | nil => exact absurd (by simpa using hx) h
      | cons a l => exact ⟨a, l, rfl⟩
    obtain ⟨m, hm⟩ : ∃ m, (data.map (·.year)).min? = some m := by
      rw [hal]
      exact ⟨_, List.min?_cons⟩
    have hchar := (List.min?_eq_some_iff (fun a => le_refl a) (fun a b => min_choice a b)
      (fun a b c => le_min_iff)).mp hm
    exact ⟨m, hm, hchar.1, hchar.2⟩
  · obtain ⟨a, l, hal⟩ : ∃ a l, data.map (·.year) = a :: l := by
      cases hx : data.map (·.year) with
      | nil => exact absurd (by simpa using hx) h
      | cons a l => exact ⟨a, l, rfl⟩
    obtain ⟨m, hm⟩ : ∃ m, (data.map (·.year)).max? = some m := by
      rw [hal]
      exact ⟨_, List.max?_cons⟩
    have hchar := (List.max?_eq_some_iff (fun a => le_refl a) (fun a b => max_choice a b)
      (fun a b c => max_le_iff)).mp hm
    exact ⟨m, hm, hchar.1, hchar.2⟩

/-- C8 witness: `generate_summary_spec` applied to a concrete list. -/
theorem generate_summary_spec_witness :
    (generate_summary [sampleA, sampleB, sampleC]).total =
      [sampleA, sampleB, sampleC].length :=
  (generate_summary_spec [sampleA, sampleB, sampleC] (by simp)).1

/-- The chart years are exactly the years present in the data. -/
theorem plot_years_mem (data : List MissionRecord) (y : Int) :
    y ∈ plot_years data ↔ y ∈ data.map (·.year) := by
  unfold plot_years
  rw [(List.perm_insertionSort _ _).mem_iff, List.mem_dedup]

/-- The chart years are strictly ascending. -/
theorem plot_years_sorted (data : List MissionRecord) :
    (plot_years data).Pairwise (· < ·) := by
  unfold plot_years
  have hs : List.Sorted (· ≤ ·) (List.insertionSort (· ≤ ·) ((data.map (·.year)).dedup)) :=
    List.sorted_insertionSort _ _
  have hnd : (List.insertionSort (· ≤ ·) ((data.map (·.year)).dedup)).Nodup :=
    (List.perm_insertionSort _ _).nodup_iff.mpr (List.nodup_dedup _)
  exact (hs.and hnd).imp fun h => lt_of_le_of_ne h.1 h.2

/-- Each bar height is that year's success percentage (the zero-total
guard is dead for years actually present). -/
theorem plot_rates_eq (data : List MissionRecord) :
    plot_success_rates data = (plot_years data).map (fun y =>
      ((data.countP fun r => r.year == y && r.success : ℚ) /
        (data.countP fun r => r.year == y : ℚ)) * 100) := by
  unfold plot_success_rates
  apply List.map_congr_left
  intro y hy
  unfold year_success_rate
  rw [if_pos]
  have hmem : y ∈ data.map (·.year) := (plot_years_mem data y).mp hy
  obtain ⟨r, hr, rfl⟩ := List.mem_map.mp hmem
  rw [List.countP_pos_iff]
  exact ⟨r, hr, by simp⟩

/-- C9: the chart draws one bar per distinct year present, in strictly
ascending year order, with height the per-year success percentage, and its
horizontal reference line is the unweighted arithmetic mean of the per-year
rates — which differs from the global success rate on a concrete dataset
(mean of rates 75 vs global rate 200/3). -/
theorem plot_mission_success_spec :
    (∀ data : List MissionRecord, data ≠ [] →
      (plot_years data).Pairwise (· < ·) ∧
      (∀ y, y ∈ plot_years data ↔ y ∈ data.map (·.year)) ∧
      plot_success_rates data = (plot_years data).map (fun y =>
        ((data.countP fun r => r.year == y && r.success : ℚ) /
          (data.countP fun r => r.year == y : ℚ)) * 100) ∧
      plot_refline data = (plot_success_rates data).sum /
        ((plot_success_rates data).length : ℚ)) ∧
    plot_refline [sampleA, sampleB, sampleC] ≠
      global_success_rate [sampleA, sampleB, sampleC] := by
  refine ⟨fun data _ =>
    ⟨plot_years_sorted data, plot_years_mem data, plot_rates_eq data, rfl⟩, ?_⟩
  simp [plot_refline, plot_success_rates, plot_years, year_success_rate,
    global_success_rate, sampleA, sampleB, sampleC]
  norm_num

/-- C9 witness: `plot_mission_success_spec` applied to a concrete list. -/
theorem plot_mission_success_spec_witness :
    plot_refline [sampleA] = (plot_success_rates [sampleA]).sum /
      ((plot_success_rates [sampleA]).length : ℚ) :=
  (plot_mission_success_spec.1 [sampleA] (by simp)).2.2.2

end Analyze
